import Mathlib

/-!
Shallow embedding of the `polldough` completion-based I/O reactor.

The definitions below are translated from the Rust sources:

* `src/lib.rs`          — facade, `Event`, `SubmissionStatus`
* `src/linux/mod.rs`    — Linux backend selection (`Completion::new` fallback)
* `src/linux/uring.rs`  — io_uring backend (`submit`, `wait`, `notify`)
* `src/polling.rs`      — readiness-polling backend
* `src/iocp.rs`         — Windows IOCP backend
* `src/buf/mod.rs`      — `Buf::slice` / `Slice::pointer`
* `src/buf/iovec.rs`    — `OwnedIoSlice`

OS interactions (syscall results, kernel completion queues, poller wakeups)
are modelled as explicit parameters of the corresponding functions: the
functions compute exactly what the Rust code computes from those inputs.
Machine integers are modelled as `Nat`/`Int` with explicit reductions
modulo `2 ^ 64` where the code performs an `as usize` cast.
-/

namespace Polldough

/-! ## Errors

`std::io::Error` values are either raw OS error codes
(`io::Error::last_os_error()` / `from_raw_os_error`) or a kind plus a
message (`io::Error::new(kind, msg)`; `io::Error::from(kind)` is modelled
with an empty message). -/

/-- The subset of `std::io::ErrorKind` used by the crate. -/
inductive ErrKind where
  | wouldBlock
  | outOfMemory
  | alreadyExists
  | invalidInput
  | notFound
  | timedOut
  | other
deriving DecidableEq, Repr

/-- A `std::io::Error`: either a raw OS error code or a kind with a message. -/
inductive IOError where
  | os (code : Nat)
  | kind (k : ErrKind) (msg : String)
deriving DecidableEq, Repr

/-- Models `io::Error::kind()`: raw OS codes decode to kinds the way `std` decodes
errno values (the handful of codes the crate can meet). -/
def IOError.kindOf : IOError → ErrKind
  | .os c =>
      if c = 11 then .wouldBlock          -- EAGAIN / EWOULDBLOCK
      else if c = 2 then .notFound        -- ENOENT
      else if c = 17 then .alreadyExists  -- EEXIST
      else if c = 22 then .invalidInput   -- EINVAL
      else if c = 12 then .outOfMemory    -- ENOMEM
      else if c = 110 then .timedOut      -- ETIMEDOUT
      else .other
  | .kind k _ => k

/-- The result type `std::io::Result<usize>` of a completed operation. -/
abbrev OpResult := Except IOError Nat

instance : DecidableEq OpResult := fun a b =>
  match a, b with
  | .ok x, .ok y =>
      if h : x = y then isTrue (by rw [h])
      else isFalse (by intro hh; cases hh; exact h rfl)
  | .error x, .error y =>
      if h : x = y then isTrue (by rw [h])
      else isFalse (by intro hh; cases hh; exact h rfl)
  | .ok _, .error _ => isFalse (by intro h; cases h)
  | .error _, .ok _ => isFalse (by intro h; cases h)

/-! ## Keys and events (`src/lib.rs`, `src/linux/uring.rs`, `src/iocp.rs`) -/

/-- The reserved sentinel key: `u64::MAX`.  Called `ENTRY_KEY` in
`src/linux/uring.rs` and `NOTIFY_KEY` in `src/iocp.rs`. -/
def ENTRY_KEY : Nat := 2 ^ 64 - 1

/-- Models `Event { key: u64, result: Result<usize> }` from `src/lib.rs`. -/
structure Event where
  key : Nat
  result : OpResult
deriving DecidableEq, Repr

/-- The `as usize` cast of an `i32` on a 64-bit target: sign-extend, then
reinterpret, i.e. reduce modulo `2 ^ 64`. -/
def usizeCast (n : Int) : Nat := (n % (2 : Int) ^ 64).toNat

/-! ## Buffer slicing (`src/buf/mod.rs`)

`Buf::pointer` returns a `NonNull<[u8]>`, i.e. an address and a byte
length.  `Buf::slice` (with a `start..end` range) asserts
`start <= end` and `end <= len` and wraps the buffer in
`Slice { buf, start, end }`; `Slice::pointer` offsets the inner pointer
by `start` and exposes length `end - start`.  A failed assert is a panic,
modelled as `none`. -/

/-- The value of `Buf::pointer()`: base address and byte length of the view. -/
structure BufView where
  addr : Nat
  len : Nat
deriving DecidableEq, Repr

/-- A buffer expression: a base buffer or a `Slice<T>` wrapper. -/
inductive BufExpr where
  | base (v : BufView)
  | sliceOf (b : BufExpr) (start endIdx : Nat)
deriving DecidableEq, Repr

/-- Models `Buf::pointer` / `Slice::pointer` (src/buf/mod.rs lines 216-226):
the slice pointer is the inner pointer advanced by `start`, with length
`end - start`. -/
def BufExpr.pointer : BufExpr → BufView
  | .base v => v
  | .sliceOf b s e => ⟨b.pointer.addr + s, e - s⟩

/-- Models `Buf::slice` with a half-open range `start..end`
(src/buf/mod.rs lines 23-60).  The length is taken from `pointer()`;
the two asserts panic (`none`) unless `start <= end <= len`. -/
def BufExpr.slice (b : BufExpr) (start endIdx : Nat) : Option BufExpr :=
  let len := b.pointer.len
  if start ≤ endIdx then
    if endIdx ≤ len then
      some (.sliceOf b start endIdx)
    else none
  else none

/-! ## `OwnedIoSlice` (`src/buf/iovec.rs`)

The unix `Sys` stores a `libc::iovec { iov_base, iov_len }`; the windows
`Sys` stores a `WSABUF { len: u32, buf }`.  Pointers are modelled by their
address.  `from_boxed_slice` takes the box's address and byte length. -/

/-- Unix `Sys { buf: iovec }`: `iov_base` pointer and `iov_len`. -/
structure SysUnix where
  iov_base : Nat
  iov_len : Nat
deriving DecidableEq, Repr

/-- Windows `Sys { buf: WSABUF }`: `len` is a `u32`, `buf` the pointer. -/
structure SysWindows where
  len : Nat
  buf : Nat
deriving DecidableEq, Repr

/-- Models `OwnedIoSlice::from_boxed_slice`, unix arm (src/buf/iovec.rs lines
55-61): store the length and the pointer obtained from `Box::into_raw`. -/
def fromBoxedSliceUnix (addr len : Nat) : SysUnix :=
  { iov_base := addr, iov_len := len }

/-- Models `OwnedIoSlice::from_boxed_slice`, windows arm (lines 48-54): the
length passes through `try_into().expect(..)` into the `u32` field
(panic, modelled `none`, if it does not fit). -/
def fromBoxedSliceWindows (addr len : Nat) : Option SysWindows :=
  if len < 2 ^ 32 then some { len := len, buf := addr } else none

/-- Models `as_ref`, unix arm (lines 121-127): the slice rebuilt from
`iov_base` and `iov_len`, as an (address, length) view. -/
def asRefUnix (s : SysUnix) : Nat × Nat := (s.iov_base, s.iov_len)

/-- Models `as_ref`, windows arm (lines 114-120): the slice rebuilt from
`buf` and `len`. -/
def asRefWindows (s : SysWindows) : Nat × Nat := (s.buf, s.len)

/-- Models `Drop`, unix arm (lines 193-198): the (pointer, length) pair handed
back to `Box::from_raw` — `iov_base` and `iov_len`. -/
def dropReclaimUnix (s : SysUnix) : Nat × Nat := (s.iov_base, s.iov_len)

/-- Models `Drop`, windows arm (lines 187-192): the code binds
`let ptr = self.0.buf.buf as *mut u8; let len = self.0.buf.buf as usize;`
— the length handed to `Box::from_raw` is the *pointer field* cast to
`usize`, not the stored `len` field. -/
def dropReclaimWindows (s : SysWindows) : Nat × Nat := (s.buf, s.buf)

/-! ## io_uring backend (`src/linux/uring.rs`)

`Completion` holds the ring (its submission queue has the capacity passed
to `new`), the `notified` flag, the eventfd and locks.  The kernel side
(the CQEs a drain yields, the outcome of `submit_with_args`, the ambient
`errno` read by `last_os_error`) is passed in as explicit inputs. -/

/-- A submission-queue entry; only `user_data` matters to the engine.
`io_uring::squeue::Entry` is created with `user_data = 0` and changed
only by an explicit `.user_data(..)` call. -/
structure SQE where
  user_data : Nat
deriving DecidableEq, Repr

/-- A completion-queue entry: `user_data : u64` and `result : i32`. -/
structure CQE where
  user_data : Nat
  result : Int
deriving DecidableEq, Repr

/-- The uring `Completion` state visible to the embedded operations:
submission-queue capacity and contents, and the `notified` flag. -/
structure UringState where
  sqCapacity : Nat
  sq : List SQE
  notified : Bool
deriving DecidableEq, Repr

/-- Models `Completion::submit` (src/linux/uring.rs lines 89-117): the op's
entry gets `user_data = key`; pushing onto a full submission queue fails
with `ErrorKind::OutOfMemory`.  (`Read`/`Write` always produce an entry,
so the `InvalidInput` branch for a missing entry is not reachable here.) -/
def uringSubmit (st : UringState) (key : Nat) : Except IOError Unit × UringState :=
  if st.sq.length = st.sqCapacity then
    (.error (IOError.kind .outOfMemory "push onto full submission queue"), st)
  else
    (.ok (), { st with sq := st.sq ++ [{ user_data := key }] })

/-- Models `Completion::notify` (lines 179-205): if `notified` was not already
set, set it, write to the eventfd (modelled as succeeding) and push a
`Read` SQE for the eventfd.  The entry is built by
`opcode::Read::new(..).build()` with **no** `.user_data(..)` call, so its
`user_data` stays at the builder default `0`.  A full queue fails with
`ErrorKind::Other` (the `notified` flag stays set). -/
def uringNotify (st : UringState) : Except IOError Unit × UringState :=
  if st.notified then
    (.ok (), st)
  else
    let st := { st with notified := true }
    if st.sq.length = st.sqCapacity then
      (.error (IOError.kind .other "push onto full submission queue"), st)
    else
      (.ok (), { st with sq := st.sq ++ [{ user_data := 0 }] })

/-- The per-CQE event construction in `Completion::wait` (lines 167-173):
`result == -1` becomes `Err(io::Error::last_os_error())` (the ambient
errno, passed in as `lastOsError`); any other `result` becomes
`Ok(result as usize)`. -/
def uringCqeToEvent (lastOsError : IOError) (e : CQE) : Event :=
  { key := e.user_data,
    result := if e.result = -1 then .error lastOsError else .ok (usizeCast e.result) }

/-- Models `Completion::wait` (lines 119-177).  Inputs from the kernel:
`submitRes` is the outcome of `submitter.submit_with_args(1, &sargs)`
(an `Err` — e.g. `ETIME` when the timeout elapses — propagates via `?`),
and `cqes` are the entries the completion-queue drain fills into the
buffer.  Every CQE with `user_data == ENTRY_KEY` clears `notified` and is
filtered out; the rest become events appended to `out`.  The returned
count is `completed_events`, the number of *drained* CQEs (before the
filter). -/
def uringWait (st : UringState) (submitRes : Except IOError Unit) (cqes : List CQE)
    (lastOsError : IOError) : Except IOError (List Event × Nat) × UringState :=
  match submitRes with
  | .error e => (.error e, st)
  | .ok _ =>
      let completed := cqes.length
      let notified := if cqes.any (fun e => e.user_data == ENTRY_KEY) then false else st.notified
      let appended :=
        (cqes.filter (fun e => e.user_data != ENTRY_KEY)).map (uringCqeToEvent lastOsError)
      -- `submit_with_args` hands all pending SQEs to the kernel.
      (.ok (appended, completed), { st with sq := [], notified := notified })

/-! ## Readiness-polling backend (`src/polling.rs`)

A submitted op carries a `PollingFn` closure (`FnMut() -> Result<usize>`)
that performs one non-blocking syscall per invocation.  A closure is
modelled by the script of results its successive invocations return; the
poller (`polling::Poller`) is the environment, so its `add`/`notify`
calls are recorded and its `wait` outcome (which sources are ready) is an
input. -/

/-- Models `SourceType` from `src/source.rs`. -/
inductive SourceType where
  | socket
  | file
deriving DecidableEq, Repr

/-- The remaining invocation results of a `PollingFn` closure.  Invoking
the closure yields the head; an exhausted script keeps returning
`WouldBlock` (the modelled syscall stays not-ready). -/
abbrev PollScript := List OpResult

/-- One invocation of a `PollingFn` closure. -/
def invokeScript : PollScript → OpResult × PollScript
  | [] => (.error (IOError.kind .wouldBlock ""), [])
  | r :: rest => (r, rest)

/-- The guard `Err(e) if e.kind() == io::ErrorKind::WouldBlock`. -/
def isWouldBlockRes : OpResult → Bool
  | .error e => e.kindOf == .wouldBlock
  | .ok _ => false

/-- What `Op::run` deposits into the polling `OpData`
(src/polling.rs lines 19-27): the closure plus the desired readiness
directions (`Self::READ` / `Self::WRITE` of the op). -/
structure OpSpec where
  script : PollScript
  read : Bool
  write : Bool
deriving DecidableEq, Repr

/-- Models `OpEntry` (src/polling.rs lines 61-70). -/
structure PollOpEntry where
  script : PollScript
  key : Nat
  read : Bool
  write : Bool
deriving DecidableEq, Repr

/-- Models `SourceEntry` (lines 49-59). -/
structure SourceEntry where
  operations : List PollOpEntry
  readable : Bool
  writable : Bool
  source : Int
deriving DecidableEq, Repr

/-- An interest registration passed to `poller.add`:
`(raw fd, poll key, readable, writable)`. -/
structure PollerAdd where
  fd : Int
  pollKey : Nat
  readable : Bool
  writable : Bool
deriving DecidableEq, Repr

/-- A `Slab` slot: occupied or vacant. -/
abbrev Slab (α : Type) := List (Option α)

/-- Models `Slab::insert`: occupy a vacant slot (or grow) and return its index. -/
def slabInsert (l : Slab α) (a : α) : Slab α × Nat :=
  match l.findIdx? Option.isNone with
  | some i => (l.set i (some a), i)
  | none => (l ++ [some a], l.length)

/-- Models `Slab::get`: `some` only for an occupied slot. -/
def slabGet (l : Slab α) (i : Nat) : Option α := (l.get? i).bind id

/-- Overwrite an occupied slot (the effect of mutating through
`get_mut`). -/
def slabSet (l : Slab α) (i : Nat) (a : α) : Slab α := l.set i (some a)

/-- The number of occupied slots (`Slab::len`). -/
def slabLen (l : Slab α) : Nat := (l.filter Option.isSome).length

/-- Models `HashMap::get` on the `Raw → usize` map, modelled as an association
list keyed by raw fd. -/
def lookupFd (m : List (Int × Nat)) (fd : Int) : Option Nat :=
  (m.find? (fun p => p.1 == fd)).map Prod.snd

/-- Models `HashMap::insert`: replace any existing binding, returning the old
value. -/
def insertFd (m : List (Int × Nat)) (fd : Int) (key : Nat) :
    List (Int × Nat) × Option Nat :=
  let old := lookupFd m fd
  ((m.filter (fun p => p.1 != fd)) ++ [(fd, key)], old)

/-- The polling `Completion` state (lines 29-47): the source slab, the
fd-reversal map, the deferred-events list, plus the record of poller
interactions (`adds` for `poller.add`, `pollerNotified` for
`poller.notify`). -/
structure PollingState where
  sources : Slab SourceEntry
  fdToKey : List (Int × Nat)
  deferred : List Event
  adds : List PollerAdd
  pollerNotified : Bool
deriving DecidableEq, Repr

/-- The polling state right after `Completion::new` (lines 83-93):
empty slab, empty map, no deferred events.  The `capacity` argument only
pre-sizes the event buffer; no bookkeeping capacity is recorded. -/
def pollingNew : PollingState :=
  { sources := [], fdToKey := [], deferred := [], adds := [], pollerNotified := false }

/-- The observable outcome of `Completion::register` on the polling
backend, including the panic of the `assert!`. -/
inductive RegisterOutcome where
  | ok (st : PollingState)
  | err (e : IOError) (st : PollingState)
  | panicked (msg : String)
deriving DecidableEq, Repr

/-- Models `Completion::register` (src/polling.rs lines 95-117): `assert!` that
the source is not a `File` (a `File` panics); insert a fresh
`SourceEntry` into the slab; insert the fd into the reversal map and fail
with `AlreadyExists` if the fd was already bound (the fresh slab entry
stays behind). -/
def pollingRegister (st : PollingState) (ty : SourceType) (fd : Int) : RegisterOutcome :=
  if ty = .file then
    .panicked "File sources are not supported on this platform"
  else
    let (slab, key) := slabInsert st.sources
      { operations := [], readable := false, writable := false, source := fd }
    let (m, old) := insertFd st.fdToKey fd key
    let st := { st with sources := slab, fdToKey := m }
    if old.isSome then
      .err (IOError.kind .alreadyExists "") st
    else
      .ok st

/-- The observable outcome of `Completion::submit` on the polling
backend.  Both the queued path and the completed-on-first-try path
return `Ok(())` in the source; `panicked` is the `.unwrap()` on a
missing slab entry. -/
inductive SubmitOutcome where
  | ok (st : PollingState)
  | err (e : IOError) (st : PollingState)
  | panicked
deriving DecidableEq, Repr

/-- Models `Completion::submit` (src/polling.rs lines 130-230).  Look up the
source by raw fd (`NotFound` if unregistered); run the op to get the
closure and interest flags; invoke the closure once:

* any result other than `WouldBlock` is pushed onto `deferred` as an
  `Event { key, result }`, `poller.notify()` is called, and submit
  returns `Ok(())` without queueing the op;
* on `WouldBlock` the op is queued on the source entry, and the source
  is (re-)added to the poller only if the interest mask broadened. -/
def pollingSubmit (st : PollingState) (fd : Int) (spec : OpSpec) (key : Nat) :
    SubmitOutcome :=
  match lookupFd st.fdToKey fd with
  | none => .err (IOError.kind .notFound "") st
  | some pollKey =>
      match slabGet st.sources pollKey with
      | none => .panicked
      | some entry =>
          let (first, rest) := invokeScript spec.script
          if isWouldBlockRes first then
            let r1 := !entry.readable && spec.read
            let entry := if r1 then { entry with readable := true } else entry
            let r2 := !entry.writable && spec.write
            let entry := if r2 then { entry with writable := true } else entry
            let adds :=
              if r1 || r2 then
                st.adds ++ [{ fd := fd, pollKey := pollKey,
                              readable := entry.readable, writable := entry.writable }]
              else st.adds
            let entry := { entry with operations :=
              entry.operations ++ [{ script := rest, key := key,
                                     read := spec.read, write := spec.write }] }
            .ok { st with sources := slabSet st.sources pollKey entry, adds := adds }
          else
            .ok { st with deferred := st.deferred ++ [{ key := key, result := first }],
                          pollerNotified := true }

/-- One pass of the `for i in (0..entry.operations.len()).rev()` loop of
`wait` (lines 251-270), acting on the operations listed in polling order
(highest index first).  Returns the emitted events (in emission order),
the operations still blocked, the re-accumulated `readable`/`writable`
flags, and whether any op blocked (the `register` flag).  The relative
order the surviving ops end up in inside the vector (an artifact of
`swap_remove`) is not tracked; no behaviour of the engine depends on it. -/
def pollOpsOnce : List PollOpEntry → List Event × List PollOpEntry × Bool × Bool × Bool
  | [] => ([], [], false, false, false)
  | op :: restOps =>
      let (r, script') := invokeScript op.script
      let (evs, kept, rd, wr, reg) := pollOpsOnce restOps
      if isWouldBlockRes r then
        (evs, { op with script := script' } :: kept, rd || op.read, wr || op.write, true)
      else
        ({ key := op.key, result := r } :: evs, kept, rd, wr, reg)

/-- The observable outcome of `Completion::wait` on the polling backend:
the events appended to `out`, the returned count, and the new state.
`panicked` is the `.unwrap()` on a poll key with no slab entry. -/
inductive WaitOutcome where
  | ok (appended : List Event) (count : Nat) (st : PollingState)
  | panicked
deriving DecidableEq, Repr

/-- Processing of one ready poll event in `wait` (lines 240-283):
clear the cached flags, poll every op of the source once (in reverse
index order), keep the blocked ones and emit the finished ones, then
re-add the source with the residual interest if any op blocked. -/
def waitProcessSource (st : PollingState) (pollKey : Nat) :
    Option (List Event × PollingState) :=
  match slabGet st.sources pollKey with
  | none => none
  | some entry =>
      let (evs, kept, rd, wr, reg) := pollOpsOnce entry.operations.reverse
      let entry := { entry with operations := kept, readable := rd, writable := wr }
      let adds :=
        if reg then
          st.adds ++ [{ fd := entry.source, pollKey := pollKey,
                        readable := rd, writable := wr }]
        else st.adds
      some (evs, { st with sources := slabSet st.sources pollKey entry, adds := adds })

/-- The loop of `wait` over the ready poll events. -/
def waitProcessList (st : PollingState) : List Nat → Option (List Event × PollingState)
  | [] => some ([], st)
  | k :: ks =>
      match waitProcessSource st k with
      | none => none
      | some (evs, st') =>
          match waitProcessList st' ks with
          | none => none
          | some (evs', st'') => some (evs ++ evs', st'')

/-- Models `Completion::wait` (src/polling.rs lines 232-289).  `ready` lists the
poll keys of the events `poller.wait` reported (the environment; an
elapsed timeout reports none and is not an error).  After processing the
ready sources, `try_deferred_events` (lines 295-304) moves every deferred
event to `out` and adds their number to the count. -/
def pollingWait (st : PollingState) (ready : List Nat) : WaitOutcome :=
  match waitProcessList st ready with
  | none => .panicked
  | some (evs, st') =>
      let appended := evs ++ st'.deferred
      let count := evs.length + st'.deferred.length
      .ok appended count { st' with deferred := [] }

/-! ## IOCP backend (`src/iocp.rs`)

The slab of `OpEntry` is created with `Slab::with_capacity(capacity)`
and `submit` refuses to grow it past that capacity.  A completion packet
returned by `GetQueuedCompletionStatusEx` points (via its `OVERLAPPED`)
either at the pre-allocated notification entry (whose key is
`NOTIFY_KEY`) or at a slab entry; the kernel-written `Internal` status
field of that `OVERLAPPED` is carried alongside. -/

/-- Models `OpEntry` (src/iocp.rs lines 102-118), minus the raw `OVERLAPPED`
storage: key, own slab index, and source type. -/
structure IocpOpEntry where
  key : Nat
  index : Nat
  source_type : SourceType
deriving DecidableEq, Repr

/-- The IOCP `Completion` state: fixed slab capacity, the slab of active
ops, and the `notified` flag. -/
structure IocpState where
  capacity : Nat
  activeOps : Slab IocpOpEntry
  notified : Bool
deriving DecidableEq, Repr

/-- Models `Completion::submit` (src/iocp.rs lines 166-198): if the slab already
holds `capacity` entries, fail with `OutOfMemory`; otherwise occupy a
vacant slot with `{ key, index, source_type }` and start the operation
(`op.run` against the entry's `OVERLAPPED`; `runRes` is its outcome,
propagated by `?`). -/
def iocpSubmit (st : IocpState) (key : Nat) (ty : SourceType)
    (runRes : Except IOError Unit) : Except IOError Unit × IocpState :=
  if slabLen st.activeOps = st.capacity then
    (.error (IOError.kind .outOfMemory "too many active operations"), st)
  else
    let (slab, index) := slabInsert st.activeOps
      { key := key, index := 0, source_type := ty }
    let slab := slabSet slab index { key := key, index := index, source_type := ty }
    match runRes with
    | .error e => (.error e, { st with activeOps := slab })
    | .ok _ => (.ok (), { st with activeOps := slab })

/-- A completion packet as seen by `wait`: the `OVERLAPPED` pointer
resolves either to the notification entry or to a slab entry at `index`;
`internal` is the `OVERLAPPED.Internal` status the kernel stored there. -/
inductive IocpPacket where
  | notification
  | op (index : Nat) (internal : Int)
deriving DecidableEq, Repr

/-- The per-entry result conversion of `wait` (lines 251-262):
`(File, 0)` and `(Socket, -1)` become `Err(last_os_error())`; any other
`Internal` value becomes `Ok(internal as usize)`. -/
def iocpInternalToResult (lastOsError : IOError) (ty : SourceType) (internal : Int) :
    OpResult :=
  match ty, internal with
  | .file, 0 => .error lastOsError
  | .socket, -1 => .error lastOsError
  | _, code => .ok (usizeCast code)

/-- The packet-processing loop of `wait` (lines 227-263).  For each
packet the entry behind its `OVERLAPPED` pointer is inspected: a key
equal to `NOTIFY_KEY` clears `notified`, records `process_notify` and
skips the packet *before* any slab removal (the pre-allocated
notification entry always takes this path); any other entry is removed
from the slab and becomes an event (a packet for an already-vacant slot
yields nothing).  Returns the events, the slab, whether a notification
was seen, and the new `notified` flag. -/
def iocpProcessPackets (lastOsError : IOError) (notified : Bool) (slab : Slab IocpOpEntry) :
    List IocpPacket → List Event × Slab IocpOpEntry × Bool × Bool
  | [] => ([], slab, false, notified)
  | .notification :: ps =>
      -- the notification `OpEntry` carries `key = NOTIFY_KEY`
      let (evs, slab', _, n') := iocpProcessPackets lastOsError false slab ps
      (evs, slab', true, n')
  | .op index internal :: ps =>
      match slabGet slab index with
      | none =>
          iocpProcessPackets lastOsError notified slab ps
      | some entry =>
          if entry.key = ENTRY_KEY then
            let (evs, slab', _, n') := iocpProcessPackets lastOsError false slab ps
            (evs, slab', true, n')
          else
            let slab := slab.set index none
            let ev : Event :=
              { key := entry.key,
                result := iocpInternalToResult lastOsError entry.source_type internal }
            let (evs, slab', sawNotify, n') := iocpProcessPackets lastOsError notified slab ps
            (ev :: evs, slab', sawNotify, n')

/-- Models `Completion::wait` (src/iocp.rs lines 200-266).  `packets` are the
entries `GetQueuedCompletionStatusEx` filled in (the environment; an
elapsed timeout fills none).  The returned count is the number of
dequeued packets minus one if a notification was among them. -/
def iocpWait (st : IocpState) (packets : List IocpPacket) (lastOsError : IOError) :
    List Event × Nat × IocpState :=
  let (evs, slab, sawNotify, notified) :=
    iocpProcessPackets lastOsError st.notified st.activeOps packets
  (evs, packets.length - (if sawNotify then 1 else 0),
   { st with activeOps := slab, notified := notified })

/-! ## Linux backend selection (`src/linux/mod.rs`)

`Completion::new` first tries the uring backend; on failure it logs and
falls back to the polling backend.  The two construction attempts are the
inputs. -/

/-- The Linux `Completion` enum (src/linux/mod.rs lines 21-25). -/
inductive LinuxCompletion where
  | uringC (u : UringState)
  | pollingC (p : PollingState)
deriving DecidableEq, Repr

/-- Models `Completion::new` (src/linux/mod.rs lines 36-45): wrap a successful
uring construction; on a uring error, construct the polling backend
instead and return whatever that yields. -/
def linuxNew (uringRes : Except IOError UringState)
    (pollingRes : Except IOError PollingState) : Except IOError LinuxCompletion :=
  match uringRes with
  | .ok ur => .ok (.uringC ur)
  | .error _ => pollingRes.map .pollingC

/-! ## Helper predicates used by the statements -/

/-- No event in the list carries the reserved key. -/
def keysOkE (evs : List Event) : Bool := evs.all fun ev => ev.key != ENTRY_KEY

/-- No queued op of the source entry carries the reserved key. -/
def entryKeysOk (entry : SourceEntry) : Bool :=
  entry.operations.all fun op => op.key != ENTRY_KEY

/-- No queued op anywhere in the slab carries the reserved key. -/
def slabKeysOk (l : Slab SourceEntry) : Bool :=
  l.all fun slot =>
    match slot with
    | some entry => entryKeysOk entry
    | none => true

/-- Every key stored in the polling backend (queued ops and deferred
events) differs from the reserved key — the state of a backend whose
user-supplied submission keys all differ from `u64::MAX`. -/
def pollingKeysOk (st : PollingState) : Bool :=
  slabKeysOk st.sources && keysOkE st.deferred

/-- Is an `Except` an `ok`? -/
def exceptIsOk : Except ε α → Bool
  | .ok _ => true
  | .error _ => false

/-- The error carried by a `RegisterOutcome`, if any. -/
def RegisterOutcome.errOf : RegisterOutcome → Option IOError
  | .err e _ => some e
  | _ => none

/-- The state a `SubmitOutcome` leaves behind, if it did not panic. -/
def SubmitOutcome.stateOf : SubmitOutcome → Option PollingState
  | .ok st => some st
  | .err _ st => some st
  | .panicked => none

/-- The error carried by a `SubmitOutcome`, if any. -/
def SubmitOutcome.errOf : SubmitOutcome → Option IOError
  | .err e _ => some e
  | _ => none

/-! # Theorems -/

/-- Claim C1 (code bug), evaluated at the failing input.  `notify()` on a
quiet uring backend enqueues the eventfd read SQE with `user_data = 0`
(the builder default — `Completion::notify` never calls `.user_data`),
not the reserved `u64::MAX`.  The kernel then completes that read with a
CQE `{ user_data = 0, result = 8 }`, and the next `wait`, far from
consuming the wakeup internally, appends `Event { key = 0, result =
Ok(8) }` to `out`, returns the pre-filter drained count `1` instead of
`0`, and leaves the `notified` flag set. -/
theorem uring_notify_wakeup_leaks_to_user :
    uringNotify { sqCapacity := 8, sq := [], notified := false }
      = (.ok (), { sqCapacity := 8, sq := [{ user_data := 0 }], notified := true })
    ∧ (0 : Nat) ≠ ENTRY_KEY
    ∧ uringWait { sqCapacity := 8, sq := [{ user_data := 0 }], notified := true }
        (.ok ()) [{ user_data := 0, result := 8 }] (IOError.os 0)
      = (.ok ([{ key := 0, result := .ok 8 }], 1),
         { sqCapacity := 8, sq := [], notified := true }) := by
  refine ⟨rfl, by decide, ?_⟩
  simp [uringWait, uringCqeToEvent, ENTRY_KEY, usizeCast]

/-- Claim C3 (code bug), evaluated at the failing input.  On the uring
backend an elapsed timeout makes the kernel return `ETIME` (62) from
`submit_with_args`, and `wait` propagates it via `?` as an `Err` instead
of returning `Ok(0)`.  The polling backend, by contrast, does return
zero events and `Ok(0)` when its poller reports nothing. -/
theorem uring_wait_timeout_surfaces_error :
    uringWait { sqCapacity := 8, sq := [], notified := false }
        (.error (IOError.os 62)) [] (IOError.os 0)
      = (.error (IOError.os 62), { sqCapacity := 8, sq := [], notified := false })
    ∧ pollingWait pollingNew [] = .ok [] 0 pollingNew := by
  exact ⟨rfl, rfl⟩

/-- Claim C4 (code bug), evaluated at the failing input.  The uring
`wait` maps only the raw CQE result `-1` to an error; a CQE carrying a
genuine io_uring error result such as `-11` (`-EAGAIN`) is converted to
`Ok((-11) as usize) = Ok(2^64 - 11)` rather than `Err` with OS error
code `11`. -/
theorem uring_negative_cqe_result_becomes_ok :
    uringCqeToEvent (IOError.os 0) { user_data := 7, result := -11 }
      = { key := 7, result := .ok (2 ^ 64 - 11) }
    ∧ uringCqeToEvent (IOError.os 0) { user_data := 7, result := -11 }
      ≠ { key := 7, result := .error (IOError.os 11) } := by
  constructor
  · simp [uringCqeToEvent, usizeCast]
  · simp [uringCqeToEvent, usizeCast]

/-- Claim C7 (code bug), evaluated at the failing input.  For a 4-byte
boxed slice whose allocation sits at address 4096: construction and
`as_ref` preserve the (pointer, length) pair on both families, and the
unix `Drop` hands `Box::from_raw` back the original pointer and length —
but the windows `Drop` reconstructs the box with length 4096 (the
*pointer field* cast to `usize`), not the original byte length 4. -/
theorem owned_io_slice_windows_drop_wrong_length :
    fromBoxedSliceWindows 4096 4 = some { len := 4, buf := 4096 }
    ∧ asRefWindows { len := 4, buf := 4096 } = (4096, 4)
    ∧ asRefUnix (fromBoxedSliceUnix 4096 4) = (4096, 4)
    ∧ dropReclaimUnix (fromBoxedSliceUnix 4096 4) = (4096, 4)
    ∧ dropReclaimWindows { len := 4, buf := 4096 } = (4096, 4096)
    ∧ (4096 : Nat) ≠ 4 := by
  refine ⟨by decide, rfl, rfl, rfl, rfl, by decide⟩

/-- Claim C9 (confirmed): for a buffer whose `pointer()` view is `v`,
with `a ≤ b ≤ v.len` and `c ≤ d ≤ b - a`, both asserts of each `slice`
pass and `buf.slice(a..b).slice(c..d)` yields the same pointer — same
start offset `a + c` from the base and same length `d - c` — as
`buf.slice(a+c..a+d)`. -/
theorem slice_slice_eq_slice_add (v : BufView) (a b c d : Nat)
    (hab : a ≤ b) (hb : b ≤ v.len) (hcd : c ≤ d) (hd : d ≤ b - a) :
    (((BufExpr.base v).slice a b).bind fun s => s.slice c d).map BufExpr.pointer
      = some ⟨v.addr + (a + c), d - c⟩
    ∧ ((BufExpr.base v).slice (a + c) (a + d)).map BufExpr.pointer
      = some ⟨v.addr + (a + c), d - c⟩ := by
  have h1 : (BufExpr.base v).slice a b = some (.sliceOf (.base v) a b) := by
    simp [BufExpr.slice, BufExpr.pointer, hab, hb]
  have h2 : (BufExpr.sliceOf (.base v) a b).slice c d
      = some (.sliceOf (.sliceOf (.base v) a b) c d) := by
    simp [BufExpr.slice, BufExpr.pointer, hcd, hd]
  have h3 : (BufExpr.base v).slice (a + c) (a + d)
      = some (.sliceOf (.base v) (a + c) (a + d)) := by
    have hac : a + c ≤ a + d := by omega
    have had : a + d ≤ v.len := by omega
    simp [BufExpr.slice, BufExpr.pointer, hac, had]
  refine ⟨?_, ?_⟩
  · rw [h1]
    simp [h2, BufExpr.pointer, BufView.mk.injEq]
    omega
  · rw [h3]
    simp [BufExpr.pointer, BufView.mk.injEq]
    omega

/-- Witness for C9 at `v = (100, 10)`, `a = 2`, `b = 8`, `c = 1`,
`d = 4`: both compositions denote the pointer `(103, 3)`. -/
theorem slice_slice_eq_slice_add_witness :
    (((BufExpr.base ⟨100, 10⟩).slice 2 8).bind fun s => s.slice 1 4).map BufExpr.pointer
      = some ⟨103, 3⟩
    ∧ ((BufExpr.base ⟨100, 10⟩).slice 3 6).map BufExpr.pointer = some ⟨103, 3⟩ :=
  slice_slice_eq_slice_add ⟨100, 10⟩ 2 8 1 4 (by decide) (by decide) (by decide) (by decide)

/-- Claim C10 (confirmed): the Linux `Completion::new` succeeds exactly
when at least one backend construction succeeds; a successful uring
construction is wrapped directly, and a uring failure is swallowed —
`new` falls back to the polling construction and returns its result. -/
theorem linux_new_fallback (ur : Except IOError UringState)
    (pr : Except IOError PollingState) :
    exceptIsOk (linuxNew ur pr) = (exceptIsOk ur || exceptIsOk pr)
    ∧ (∀ u, ur = .ok u → linuxNew ur pr = .ok (.uringC u))
    ∧ (∀ e p, ur = .error e → pr = .ok p → linuxNew ur pr = .ok (.pollingC p)) := by
  refine ⟨?_, ?_, ?_⟩
  · cases ur <;> cases pr <;> simp [linuxNew, exceptIsOk, Except.map]
  · intro u hu
    subst hu
    rfl
  · intro e p hu hp
    subst hu
    subst hp
    rfl

/-- Witness for C10: with a failed uring construction and a successful
polling construction, `new` returns the polling backend. -/
theorem linux_new_fallback_witness :
    exceptIsOk (linuxNew (.error (IOError.os 38)) (.ok pollingNew))
      = (exceptIsOk (Except.error (ε := IOError) (α := UringState) (IOError.os 38))
          || exceptIsOk (Except.ok (ε := IOError) pollingNew))
    ∧ linuxNew (.error (IOError.os 38)) (.ok pollingNew) = .ok (.pollingC pollingNew) := by
  have h := linux_new_fallback (.error (IOError.os 38)) (.ok pollingNew)
  exact ⟨h.1, h.2.2 (IOError.os 38) pollingNew rfl rfl⟩

/-- Counterexample for C2: on a polling backend with socket fd 3
registered at poll key 0, submitting (key 42) an op whose first
non-blocking attempt returns the final result `Ok(5)` makes `submit`
return the plain `Ok(())` outcome — no `SubmissionStatus` is produced —
with `Event { 42, Ok(5) }` pushed onto the deferred queue, and the very
next `wait` (woken with no ready sources) *does* append that event to
`out` and counts it. -/
theorem polling_early_completion_reaches_wait_cex :
    pollingSubmit
      { sources := [some { operations := [], readable := false, writable := false,
                           source := 3 }],
        fdToKey := [(3, 0)], deferred := [], adds := [], pollerNotified := false }
      3 { script := [.ok 5], read := true, write := false } 42
      = .ok { sources := [some { operations := [], readable := false, writable := false,
                                 source := 3 }],
              fdToKey := [(3, 0)], deferred := [{ key := 42, result := .ok 5 }],
              adds := [], pollerNotified := true }
    ∧ pollingWait
        { sources := [some { operations := [], readable := false, writable := false,
                             source := 3 }],
          fdToKey := [(3, 0)], deferred := [{ key := 42, result := .ok 5 }],
          adds := [], pollerNotified := true } []
      = .ok [{ key := 42, result := .ok 5 }] 1
          { sources := [some { operations := [], readable := false, writable := false,
                               source := 3 }],
            fdToKey := [(3, 0)], deferred := [], adds := [], pollerNotified := true } := by
  constructor
  · rfl
  · rfl

/-- Claim C2 (corrected): on the polling backend, when the op's first
non-blocking attempt during `submit` returns a final result (anything
whose kind is not `WouldBlock`), `submit` does not queue the op and does
not touch the poller interest; it appends `Event { key, result }` to the
deferred queue, notifies the poller, and returns the plain `Ok(())`
outcome.  The next `wait` — even one that finds no ready source —
appends that event to `out` and includes it in the returned count. -/
theorem polling_early_completion_via_deferred (st : PollingState) (fd : Int)
    (spec : OpSpec) (key : Nat) (pollKey : Nat) (entry : SourceEntry)
    (hlook : lookupFd st.fdToKey fd = some pollKey)
    (hget : slabGet st.sources pollKey = some entry)
    (hnb : isWouldBlockRes (invokeScript spec.script).1 = false) :
    pollingSubmit st fd spec key
      = .ok { st with
              deferred := st.deferred
                ++ [{ key := key, result := (invokeScript spec.script).1 }],
              pollerNotified := true }
    ∧ pollingWait
        { st with
          deferred := st.deferred
            ++ [{ key := key, result := (invokeScript spec.script).1 }],
          pollerNotified := true } []
      = .ok (st.deferred ++ [{ key := key, result := (invokeScript spec.script).1 }])
          (st.deferred.length + 1)
          { st with deferred := [], pollerNotified := true } := by
  constructor
  · rcases hp : invokeScript spec.script with ⟨first, rest⟩
    rw [hp] at hnb
    simp only [hp]
    simp [pollingSubmit, hlook, hget, hp, hnb]
  · simp [pollingWait, waitProcessList]

/-- Witness for C2's corrected statement at the concrete input of the
counterexample. -/
theorem polling_early_completion_via_deferred_witness :
    pollingSubmit
      { sources := [some { operations := [], readable := false, writable := false,
                           source := 3 }],
        fdToKey := [(3, 0)], deferred := [], adds := [], pollerNotified := false }
      3 { script := [.ok 5], read := true, write := false } 42
      = .ok { sources := [some { operations := [], readable := false, writable := false,
                                 source := 3 }],
              fdToKey := [(3, 0)],
              deferred := [] ++ [{ key := 42, result := (invokeScript [.ok 5]).1 }],
              adds := [], pollerNotified := true }
    ∧ pollingWait
        { sources := [some { operations := [], readable := false, writable := false,
                             source := 3 }],
          fdToKey := [(3, 0)],
          deferred := [] ++ [{ key := 42, result := (invokeScript [.ok 5]).1 }],
          adds := [], pollerNotified := true } []
      = .ok ([] ++ [{ key := 42, result := (invokeScript [.ok 5]).1 }])
          (([] : List Event).length + 1)
          { sources := [some { operations := [], readable := false, writable := false,
                               source := 3 }],
            fdToKey := [(3, 0)], deferred := [], adds := [], pollerNotified := true } :=
  polling_early_completion_via_deferred
    { sources := [some { operations := [], readable := false, writable := false,
                         source := 3 }],
      fdToKey := [(3, 0)], deferred := [], adds := [], pollerNotified := false }
    3 { script := [.ok 5], read := true, write := false } 42 0
    { operations := [], readable := false, writable := false, source := 3 }
    rfl rfl rfl

/-- Counterexample for C5: the polling backend keeps its sources in a
`Slab::new()` with no fixed capacity, and `submit` performs no capacity
check.  With construction capacity 1 and one op already in flight on
source fd 3, submitting a second would-block op (key 2) succeeds and
simply queues it — it does not return `OutOfMemory`. -/
theorem polling_submit_beyond_capacity_succeeds_cex :
    pollingSubmit
      { sources := [some { operations := [{ script := [], key := 1, read := true,
                                            write := false }],
                           readable := true, writable := false, source := 3 }],
        fdToKey := [(3, 0)], deferred := [], adds := [], pollerNotified := false }
      3 { script := [.error (IOError.os 11)], read := true, write := false } 2
      = .ok { sources := [some { operations := [{ script := [], key := 1, read := true,
                                                  write := false },
                                                { script := [], key := 2, read := true,
                                                  write := false }],
                                 readable := true, writable := false, source := 3 }],
              fdToKey := [(3, 0)], deferred := [], adds := [],
              pollerNotified := false } := by
  rfl

/-- Claim C5 (corrected): the uring backend's submission queue and the
IOCP backend's op slab have fixed capacity from construction, and a
submit against a full queue or slab fails with `OutOfMemory`; the
polling backend's bookkeeping, however, has no fixed capacity — the only
error its `submit` itself produces is `NotFound` for an unregistered fd,
never `OutOfMemory`. -/
theorem submit_full_capacity_behaviour :
    (∀ (st : UringState) (key : Nat), st.sq.length = st.sqCapacity →
        uringSubmit st key
          = (.error (IOError.kind .outOfMemory "push onto full submission queue"), st))
    ∧ (∀ (st : IocpState) (key : Nat) (ty : SourceType) (runRes : Except IOError Unit),
        slabLen st.activeOps = st.capacity →
        iocpSubmit st key ty runRes
          = (.error (IOError.kind .outOfMemory "too many active operations"), st))
    ∧ (∀ (st : PollingState) (fd : Int) (spec : OpSpec) (key : Nat) (e : IOError),
        (pollingSubmit st fd spec key).errOf = some e → e.kindOf = .notFound) := by
  refine ⟨?_, ?_, ?_⟩
  · intro st key h
    simp [uringSubmit, h]
  · intro st key ty runRes h
    simp [iocpSubmit, h]
  · intro st fd spec key e h
    rcases hp : invokeScript spec.script with ⟨first, rest⟩
    cases hl : lookupFd st.fdToKey fd with
    | none =>
        simp [pollingSubmit, hl, SubmitOutcome.errOf] at h
        rw [← h]
        rfl
    | some pollKey =>
        cases hg : slabGet st.sources pollKey with
        | none =>
            simp [pollingSubmit, hl, hg, SubmitOutcome.errOf] at h
        | some entry =>
            by_cases hw : isWouldBlockRes first = true
            · simp [pollingSubmit, hl, hg, hp, hw, SubmitOutcome.errOf] at h
            · simp only [Bool.not_eq_true] at hw
              simp [pollingSubmit, hl, hg, hp, hw, SubmitOutcome.errOf] at h

/-- Witness for C5's corrected statement: a full uring queue and a full
IOCP slab reject with `OutOfMemory`, while the polling submit's only
self-produced error, at an unregistered fd, has kind `NotFound`. -/
theorem submit_full_capacity_behaviour_witness :
    uringSubmit { sqCapacity := 0, sq := [], notified := false } 1
      = (.error (IOError.kind .outOfMemory "push onto full submission queue"),
         { sqCapacity := 0, sq := [], notified := false })
    ∧ iocpSubmit { capacity := 0, activeOps := [], notified := false } 1 .socket (.ok ())
      = (.error (IOError.kind .outOfMemory "too many active operations"),
         { capacity := 0, activeOps := [], notified := false })
    ∧ (IOError.kind .notFound "").kindOf = .notFound := by
  have h := submit_full_capacity_behaviour
  refine ⟨h.1 _ 1 rfl, h.2.1 _ 1 .socket (.ok ()) rfl, ?_⟩
  exact h.2.2 pollingNew 3 { script := [], read := true, write := false } 1
    (IOError.kind .notFound "") rfl

/-- Counterexample for C6: on the polling backend, `register` with a
`File` source does not return an `InvalidInput` error — it panics
(`assert!`) with this message. -/
theorem polling_register_file_panics_cex :
    pollingRegister pollingNew .file 5
      = .panicked "File sources are not supported on this platform" := by
  rfl

/-- Claim C6 (corrected): on the polling backend, `register` panics
(rather than returning an error) when given a `File` source, and returns
an `AlreadyExists` error when the source's raw fd is already present in
the fd map. -/
theorem polling_register_behaviour :
    (∀ (st : PollingState) (fd : Int),
        pollingRegister st .file fd
          = .panicked "File sources are not supported on this platform")
    ∧ (∀ (st : PollingState) (fd : Int) (pollKey : Nat),
        lookupFd st.fdToKey fd = some pollKey →
        (pollingRegister st .socket fd).errOf
          = some (IOError.kind .alreadyExists "")) := by
  constructor
  · intro st fd
    rfl
  · intro st fd pollKey h
    simp [pollingRegister, insertFd, h, RegisterOutcome.errOf]

/-- Witness for C6's corrected statement: a `File` registration panics,
and re-registering fd 7 yields `AlreadyExists`. -/
theorem polling_register_behaviour_witness :
    pollingRegister pollingNew .file 9
      = .panicked "File sources are not supported on this platform"
    ∧ (pollingRegister
        { sources := [some { operations := [], readable := false, writable := false,
                             source := 7 }],
          fdToKey := [(7, 0)], deferred := [], adds := [], pollerNotified := false }
        .socket 7).errOf
      = some (IOError.kind .alreadyExists "") := by
  have h := polling_register_behaviour
  exact ⟨h.1 pollingNew 9, h.2 _ 7 0 rfl⟩

/-- An occupied slot retrieved from a slab is one of its elements. -/
theorem slabGet_mem {l : Slab α} {i : Nat} {a : α} (h : slabGet l i = some a) :
    some a ∈ l := by
  unfold slabGet at h
  cases hg : l.get? i with
  | none => rw [hg] at h; cases h
  | some o =>
      rw [hg] at h
      have ho : o = some a := h
      rw [ho] at hg
      exact List.get?_mem hg

/-- Overwriting a slot with a key-clean entry keeps the slab key-clean. -/
theorem slabKeysOk_set {l : Slab SourceEntry} {i : Nat} {entry : SourceEntry}
    (hl : slabKeysOk l = true) (he : entryKeysOk entry = true) :
    slabKeysOk (slabSet l i entry) = true := by
  unfold slabKeysOk at hl ⊢
  unfold slabSet
  rw [List.all_eq_true] at hl ⊢
  intro slot hmem
  rcases List.mem_or_eq_of_mem_set hmem with h | h
  · exact hl _ h
  · subst h
    simpa using he

/-- Polling every op of a source once emits only events whose keys come
from the ops, and keeps only ops whose keys come from the ops. -/
theorem pollOpsOnce_keys (ops : List PollOpEntry)
    (h : ops.all (fun op => op.key != ENTRY_KEY) = true) :
    keysOkE (pollOpsOnce ops).1 = true
    ∧ (pollOpsOnce ops).2.1.all (fun op => op.key != ENTRY_KEY) = true := by
  induction ops with
  | nil => exact ⟨rfl, rfl⟩
  | cons op rest ih =>
      rw [List.all_cons, Bool.and_eq_true] at h
      obtain ⟨h1, h2⟩ := h
      obtain ⟨ih1, ih2⟩ := ih h2
      rcases hs : invokeScript op.script with ⟨r, script'⟩
      rcases hpo : pollOpsOnce rest with ⟨evs, kept, rd, wr, reg⟩
      rw [hpo] at ih1 ih2
      have h1' : op.key ≠ ENTRY_KEY := by simpa using h1
      by_cases hw : isWouldBlockRes r = true
      · simp [pollOpsOnce, hs, hpo, hw, keysOkE, List.all_cons] at ih1 ih2 ⊢
        exact ⟨ih1, h1', ih2⟩
      · simp only [Bool.not_eq_true] at hw
        simp [pollOpsOnce, hs, hpo, hw, keysOkE, List.all_cons] at ih1 ih2 ⊢
        exact ⟨⟨h1', ih1⟩, ih2⟩

/-- Processing one ready source in `wait` emits only key-clean events
and keeps the state key-clean (the deferred list is untouched). -/
theorem waitProcessSource_keys {st : PollingState} {pollKey : Nat} {evs : List Event}
    {st' : PollingState} (hs : slabKeysOk st.sources = true)
    (h : waitProcessSource st pollKey = some (evs, st')) :
    keysOkE evs = true ∧ slabKeysOk st'.sources = true ∧ st'.deferred = st.deferred := by
  cases hg : slabGet st.sources pollKey with
  | none => simp [waitProcessSource, hg] at h
  | some entry =>
      have hek : entryKeysOk entry = true := by
        have hmem : some entry ∈ st.sources := slabGet_mem hg
        have := (List.all_eq_true.mp hs) _ hmem
        simpa [entryKeysOk] using this
      have hrev : entry.operations.reverse.all (fun op => op.key != ENTRY_KEY) = true := by
        simp only [entryKeysOk] at hek
        rw [List.all_eq_true] at hek ⊢
        intro op hmem
        exact hek op (List.mem_reverse.mp hmem)
      obtain ⟨hevs, hkept⟩ := pollOpsOnce_keys _ hrev
      rcases hpo : pollOpsOnce entry.operations.reverse with ⟨evs0, kept, rd, wr, reg⟩
      rw [hpo] at hevs hkept
      simp only [waitProcessSource, hg, hpo, Option.some.injEq, Prod.mk.injEq] at h
      obtain ⟨hevs', hst'⟩ := h
      subst hevs'
      subst hst'
      refine ⟨hevs, ?_, rfl⟩
      exact slabKeysOk_set hs (by simpa [entryKeysOk] using hkept)

/-- The ready-event loop of `wait` preserves key-cleanliness. -/
theorem waitProcessList_keys (ready : List Nat) :
    ∀ (st : PollingState) (evs : List Event) (st' : PollingState),
      slabKeysOk st.sources = true →
      waitProcessList st ready = some (evs, st') →
      keysOkE evs = true ∧ slabKeysOk st'.sources = true ∧ st'.deferred = st.deferred := by
  induction ready with
  | nil =>
      intro st evs st' hs h
      simp only [waitProcessList, Option.some.injEq, Prod.mk.injEq] at h
      obtain ⟨h1, h2⟩ := h
      subst h1
      subst h2
      exact ⟨rfl, hs, rfl⟩
  | cons k ks ih =>
      intro st evs st' hs h
      cases hps : waitProcessSource st k with
      | none => simp [waitProcessList, hps] at h
      | some p =>
          rcases p with ⟨evs1, st1⟩
          cases hpl : waitProcessList st1 ks with
          | none => simp [waitProcessList, hps, hpl] at h
          | some q =>
              rcases q with ⟨evs2, st2⟩
              simp only [waitProcessList, hps, hpl, Option.some.injEq,
                Prod.mk.injEq] at h
              obtain ⟨h1, h2⟩ := h
              subst h1
              subst h2
              obtain ⟨ha, hb, hc⟩ := waitProcessSource_keys hs hps
              obtain ⟨ha', hb', hc'⟩ := ih st1 evs2 st2 hb hpl
              refine ⟨?_, hb', by rw [hc', hc]⟩
              simp only [keysOkE, List.all_append, Bool.and_eq_true]
              exact ⟨ha, ha'⟩

/-- The IOCP packet loop filters every entry whose key is the reserved
`NOTIFY_KEY` before it can become an event, so no emitted event carries
the reserved key — no hypothesis on the slab is needed. -/
theorem iocpProcessPackets_keys (err : IOError) (packets : List IocpPacket) :
    ∀ (notified : Bool) (slab : Slab IocpOpEntry),
      keysOkE (iocpProcessPackets err notified slab packets).1 = true := by
  induction packets with
  | nil => intro n s; rfl
  | cons p ps ih =>
      intro n s
      cases p with
      | notification =>
          rcases hr : iocpProcessPackets err false s ps with ⟨evs, slab', saw, n'⟩
          have hih := ih false s
          rw [hr] at hih
          simp only [iocpProcessPackets, hr]
          exact hih
      | op index internal =>
          cases hg : slabGet s index with
          | none =>
              have hih := ih n s
              simp only [iocpProcessPackets, hg]
              exact hih
          | some entry =>
              by_cases hk : entry.key = ENTRY_KEY
              · rcases hr : iocpProcessPackets err false s ps with ⟨evs, slab', saw, n'⟩
                have hih := ih false s
                rw [hr] at hih
                simp only [iocpProcessPackets, hg, hk, if_pos, hr]
                simpa using hih
              · rcases hr : iocpProcessPackets err n (s.set index none) ps
                  with ⟨evs, slab', saw, n'⟩
                have hih := ih n (s.set index none)
                rw [hr] at hih
                simp only [iocpProcessPackets, hg, hr, if_neg hk]
                simp only [keysOkE, List.all_cons, Bool.and_eq_true] at hih ⊢
                refine ⟨by simpa using hk, hih⟩

/-- Claim C8 (confirmed): no event appended to `out` by `wait` carries
the reserved key `u64::MAX`, on any backend.  The uring and IOCP waits
filter the reserved key unconditionally; the polling wait only ever
emits keys stored in its state, so it needs the proviso — expressed by
`pollingKeysOk` — that every user-supplied key in the state differs from
`u64::MAX`, and the polling `submit` preserves that proviso whenever the
submitted key differs from `u64::MAX`. -/
theorem wait_never_emits_reserved_key :
    (∀ (st : UringState) (submitRes : Except IOError Unit) (cqes : List CQE)
        (err : IOError) (evs : List Event) (count : Nat) (st' : UringState),
        uringWait st submitRes cqes err = (.ok (evs, count), st') →
        keysOkE evs = true)
    ∧ (∀ (st : PollingState) (ready : List Nat) (evs : List Event) (count : Nat)
        (st' : PollingState), pollingKeysOk st = true →
        pollingWait st ready = .ok evs count st' → keysOkE evs = true)
    ∧ (∀ (st : PollingState) (fd : Int) (spec : OpSpec) (key : Nat)
        (st1 : PollingState), pollingKeysOk st = true → key ≠ ENTRY_KEY →
        (pollingSubmit st fd spec key).stateOf = some st1 →
        pollingKeysOk st1 = true)
    ∧ (∀ (st : IocpState) (packets : List IocpPacket) (err : IOError),
        keysOkE (iocpWait st packets err).1 = true) := by
  refine ⟨?_, ?_, ?_, ?_⟩
  · intro st submitRes cqes err evs count st' h
    cases submitRes with
    | error e => simp [uringWait] at h
    | ok u =>
        simp only [uringWait, Prod.mk.injEq, Except.ok.injEq] at h
        obtain ⟨⟨h1, h2⟩, h3⟩ := h
        subst h1
        rw [keysOkE, List.all_eq_true]
        intro ev hmem
        simp only [List.mem_map, List.mem_filter] at hmem
        obtain ⟨c, ⟨hc, hne⟩, rfl⟩ := hmem
        simpa [uringCqeToEvent] using hne
  · intro st ready evs count st' hko h
    rw [pollingKeysOk, Bool.and_eq_true] at hko
    obtain ⟨hs, hd⟩ := hko
    cases hpl : waitProcessList st ready with
    | none => simp [pollingWait, hpl] at h
    | some p =>
        rcases p with ⟨evs1, st1⟩
        simp only [pollingWait, hpl, WaitOutcome.ok.injEq] at h
        obtain ⟨h1, h2, h3⟩ := h
        subst h1
        obtain ⟨ha, hb, hc⟩ := waitProcessList_keys ready st evs1 st1 hs hpl
        rw [keysOkE, List.all_append, Bool.and_eq_true]
        exact ⟨ha, by rw [hc]; exact hd⟩
  · intro st fd spec key st1 hko hkey h
    have hko' := hko
    rw [pollingKeysOk, Bool.and_eq_true] at hko'
    obtain ⟨hs, hd⟩ := hko'
    cases hl : lookupFd st.fdToKey fd with
    | none =>
        simp only [pollingSubmit, hl, SubmitOutcome.stateOf, Option.some.injEq] at h
        rw [← h]
        exact hko
    | some pollKey =>
        cases hg : slabGet st.sources pollKey with
        | none => simp [pollingSubmit, hl, hg, SubmitOutcome.stateOf] at h
        | some entry =>
            have hek : entryKeysOk entry = true := by
              have hmem : some entry ∈ st.sources := slabGet_mem hg
              have := (List.all_eq_true.mp hs) _ hmem
              simpa [entryKeysOk] using this
            rcases hp : invokeScript spec.script with ⟨first, rest⟩
            by_cases hw : isWouldBlockRes first = true
            · simp only [pollingSubmit, hl, hg, hp, hw, if_pos, SubmitOutcome.stateOf,
                Option.some.injEq] at h
              rw [← h]
              rw [pollingKeysOk, Bool.and_eq_true]
              refine ⟨?_, hd⟩
              apply slabKeysOk_set hs
              rw [entryKeysOk, List.all_eq_true]
              intro op hop
              rw [List.mem_append] at hop
              rcases hop with hop | hop
              · have hmem : op ∈ entry.operations := by
                  revert hop
                  split <;> (try split) <;> exact fun x => x
                have hall : ∀ x ∈ entry.operations, ¬x.key = ENTRY_KEY := by
                  simpa [entryKeysOk] using hek
                simpa using hall _ hmem
              · simp only [List.mem_singleton] at hop
                subst hop
                simp [hkey]
            · simp only [Bool.not_eq_true] at hw
              simp only [pollingSubmit, hl, hg, hp, hw, Bool.false_eq_true,
                if_false, SubmitOutcome.stateOf, Option.some.injEq] at h
              rw [← h]
              rw [pollingKeysOk, Bool.and_eq_true]
              refine ⟨hs, ?_⟩
              rw [keysOkE, List.all_append, Bool.and_eq_true]
              exact ⟨hd, by simp [hkey]⟩
  · intro st packets err
    have hkeys := iocpProcessPackets_keys err packets st.notified st.activeOps
    rcases hr : iocpProcessPackets err st.notified st.activeOps packets
      with ⟨evs, slab', saw, n'⟩
    rw [hr] at hkeys
    simpa [iocpWait, hr] using hkeys

/-- Witness for C8: concrete waits on all three backends emit only
non-reserved keys, and a concrete polling submit with a non-reserved key
preserves the key-clean state. -/
theorem wait_never_emits_reserved_key_witness :
    keysOkE [{ key := 5, result := .ok 7 }] = true
    ∧ keysOkE [{ key := 5, result := .ok 3 }, { key := 9, result := .ok 1 }] = true
    ∧ pollingKeysOk
        { sources := [some { operations := [], readable := false, writable := false,
                             source := 3 }],
          fdToKey := [(3, 0)], deferred := [{ key := 42, result := .ok 5 }],
          adds := [], pollerNotified := true } = true
    ∧ keysOkE (iocpWait
        { capacity := 2,
          activeOps := [some { key := 1, index := 0, source_type := .socket }],
          notified := true }
        [.notification, .op 0 5] (IOError.os 997)).1 = true := by
  have h := wait_never_emits_reserved_key
  refine ⟨?_, ?_, ?_, ?_⟩
  · exact h.1 { sqCapacity := 4, sq := [], notified := false } (.ok ())
      [{ user_data := 5, result := 7 }] (IOError.os 0)
      [{ key := 5, result := .ok 7 }] 1
      { sqCapacity := 4, sq := [], notified := false }
      (by simp [uringWait, uringCqeToEvent, ENTRY_KEY, usizeCast])
  · exact h.2.1
      { sources := [some { operations := [{ script := [.ok 3], key := 5, read := true,
                                            write := false }],
                           readable := true, writable := false, source := 3 }],
        fdToKey := [(3, 0)], deferred := [{ key := 9, result := .ok 1 }],
        adds := [], pollerNotified := false }
      [0] [{ key := 5, result := .ok 3 }, { key := 9, result := .ok 1 }] 2
      { sources := [some { operations := [], readable := false, writable := false,
                           source := 3 }],
        fdToKey := [(3, 0)], deferred := [], adds := [], pollerNotified := false }
      (by decide) (by decide)
  · exact h.2.2.1
      { sources := [some { operations := [], readable := false, writable := false,
                           source := 3 }],
        fdToKey := [(3, 0)], deferred := [], adds := [], pollerNotified := false }
      3 { script := [.ok 5], read := true, write := false } 42 _
      (by decide) (by decide) rfl
  · exact h.2.2.2
      { capacity := 2,
        activeOps := [some { key := 1, index := 0, source_type := .socket }],
        notified := true }
      [.notification, .op 0 5] (IOError.os 997)

end Polldough
